import Mathlib

/-!
Formal model of the swagger-smoke test-case derivation and execution engine
(the `SwaggerSmoke` class of `src/unnamed/part_001`, the authoritative source
variant).  JavaScript values flowing through the engine (parameter values,
schemas, header maps, request bodies) are modelled by the JSON-like type
`JVal`; the external collaborators (the `json-schema-faker` generator, the
`z-schema` validator and the supertest HTTP transport) are oracles stored in
the `Engine` record.  Asynchronous execution is sequential in the source
(every handler call and request is awaited), so it is modelled by plain
sequential composition; a promise rejection that propagates out of the
traversal is modelled by the `Except.error` branch carrying the engine's
mutable tally at the moment of the rejection.
-/

/-- JSON-like JavaScript values: primitives, arrays and plain objects
(fields in insertion order). `null` also stands for JS `undefined` in the
few places where an undefined value is stored into a structure. -/
inductive JVal where
  | null
  | bool (b : Bool)
  | num (n : Int)
  | str (s : String)
  | arr (xs : List JVal)
  | obj (fs : List (String × JVal))
  deriving Repr

/-- `lodash.isObject`: arrays and plain objects count as objects,
primitives and `null` do not. -/
def isObjectJS : JVal → Bool
  | .obj _ => true
  | .arr _ => true
  | _ => false

/-- `lodash.isString`. -/
def isStringJS : JVal → Bool
  | .str _ => true
  | _ => false

/-- A plain object in the strict sense (arrays excluded); used to state
spec sentences that speak of a "plain object". -/
def isPlainObjectJS : JVal → Bool
  | .obj _ => true
  | _ => false

/-- JavaScript truthiness of a value. -/
def jsTruthy : JVal → Bool
  | .null => false
  | .bool b => b
  | .num n => n != 0
  | .str s => s != ""
  | _ => true

/-- Own-property lookup on an object's field list (`o[key]`, returning
`none` for JS `undefined`). -/
def jfLookup (fs : List (String × JVal)) (key : String) : Option JVal :=
  (fs.find? (fun kv => kv.1 == key)).map (fun kv => kv.2)

/-- JS property assignment `o[key] = v`: overwrite in place when the key
exists, append otherwise. -/
def jfSet (fs : List (String × JVal)) (key : String) (v : JVal) : List (String × JVal) :=
  if (fs.find? (fun kv => kv.1 == key)).isSome then
    fs.map (fun kv => if kv.1 == key then (kv.1, v) else kv)
  else fs ++ [(key, v)]

/-- Property lookup on an arbitrary value (`v.key`); non-objects have no
own string-keyed data properties that the engine reads. -/
def jvLookup : JVal → String → Option JVal
  | .obj fs, key => jfLookup fs key
  | _, _ => none

/-- `Object.getOwnPropertyNames`: keys of an object, indices plus `length`
for arrays and strings, nothing for other primitives. -/
def jsOwnPropNames : JVal → List String
  | .obj fs => fs.map (fun kv => kv.1)
  | .arr xs => (List.range xs.length).map toString ++ ["length"]
  | .str s => (List.range s.length).map toString ++ ["length"]
  | _ => []

/-- JS `a || d` for an optional number (`0` is falsy, so it falls through
to the default, exactly as in `this.options.successHttpCode || 200`). -/
def jsOrNat : Option Nat → Nat → Nat
  | some n, d => if n = 0 then d else n
  | none, d => d

/-- Whether `pat` occurs at the head of `s` (character lists). -/
def charsStartWith : List Char → List Char → Bool
  | [], _ => true
  | _ :: _, [] => false
  | p :: ps, c :: cs => p == c && charsStartWith ps cs

/-- Replace the leftmost occurrence of `pat` by `rep`; `none` when `pat`
does not occur. -/
def charsReplaceFirst (pat rep : List Char) : List Char → Option (List Char)
  | [] => none
  | c :: rest =>
    if charsStartWith pat (c :: rest) then some (rep ++ (c :: rest).drop pat.length)
    else (charsReplaceFirst pat rep rest).map (fun r => c :: r)

/-- `String.prototype.replace` with a string pattern: replaces only the
first (leftmost) occurrence, returning the string unchanged when the
pattern does not occur. -/
def replaceFirstOcc (s pat rep : String) : String :=
  match charsReplaceFirst pat.data rep.data s.data with
  | some r => String.mk r
  | none => s

mutual

/-- JS string coercion of a value, as performed by template literals and
`String.prototype.replace`. -/
def jvalToString : JVal → String
  | .null => "null"
  | .bool b => if b then "true" else "false"
  | .num n => toString n
  | .str s => s
  | .arr xs => jvalArrToString xs
  | .obj _ => "[object Object]"

/-- `Array.prototype.toString`: elements joined by commas, `null` and
`undefined` elements rendered empty. -/
def jvalArrToString : List JVal → String
  | [] => ""
  | [JVal.null] => ""
  | [v] => jvalToString v
  | JVal.null :: rest => "," ++ jvalArrToString rest
  | v :: rest => jvalToString v ++ "," ++ jvalArrToString rest

end

/-- String coercion of a possibly-undefined value (`undefined` is
interpolated as the string `undefined`). -/
def jsToString : Option JVal → String
  | none => "undefined"
  | some v => jvalToString v

mutual

/-- `_forceSchemaPropertiesAsRequired` of `src/unnamed/part_001`: when the
schema has a truthy `properties` member, set `required` to the own property
names of `properties`; then `lodash.forIn` over the schema's own entries
runs the callback `(val, key)`, which recurses into object elements of
array-valued entries (`lodash.isArray(val)` branch) — the second branch
tests `lodash.isObject(key)`, and `key` is always a string, so it never
recurses.  (Assigning `required` before or after the `forIn` pass yields
the same result, because the fresh `required` value is an array of strings
which the pass leaves unchanged.) -/
def forceSchemaPropertiesAsRequired : JVal → JVal
  | .obj fs =>
    let stepped := forInFields fs
    match jfLookup fs "properties" with
    | some p =>
      if jsTruthy p then
        .obj (jfSet stepped "required" (.arr ((jsOwnPropNames p).map JVal.str)))
      else .obj stepped
    | none => .obj stepped
  | .arr xs => .arr (forInSteps xs)
  | v => v

/-- The `forIn` pass over an object's own entries. -/
def forInFields : List (String × JVal) → List (String × JVal)
  | [] => []
  | (k, v) :: rest => (k, forInStep v) :: forInFields rest

/-- The `forIn` pass over an array's elements (indices are the keys, the
elements are the values handed to the callback). -/
def forInSteps : List JVal → List JVal
  | [] => []
  | v :: rest => forInStep v :: forInSteps rest

/-- One `forIn` callback invocation: only the `lodash.isArray(val)` branch
does anything, recursing into the object elements of the array. -/
def forInStep : JVal → JVal
  | .arr els => .arr (forInArrElems els)
  | v => v

/-- `val.forEach((el) => { if (lodash.isObject(el)) recurse(el); })`. -/
def forInArrElems : List JVal → List JVal
  | [] => []
  | el :: rest =>
    (if isObjectJS el then forceSchemaPropertiesAsRequired el else el) :: forInArrElems rest

end

mutual

/-- Whether `jsonPath.paths(v, $..key)` finds at least one match: a member
named `key` at any depth. -/
def hasKeyDeep (key : String) : JVal → Bool
  | .obj fs => hasKeyDeepFields key fs
  | .arr xs => hasKeyDeepElems key xs
  | _ => false

def hasKeyDeepFields (key : String) : List (String × JVal) → Bool
  | [] => false
  | (k, v) :: rest => k == key || hasKeyDeep key v || hasKeyDeepFields key rest

def hasKeyDeepElems (key : String) : List JVal → Bool
  | [] => false
  | v :: rest => hasKeyDeep key v || hasKeyDeepElems key rest

end

mutual

/-- Overwrite every member named `key`, at any depth, with `newVal`
(the `lodash.set` loop over the jsonPath matches). -/
def deepReplaceKey (key : String) (newVal : JVal) : JVal → JVal
  | .obj fs => .obj (deepReplaceKeyFields key newVal fs)
  | .arr xs => .arr (deepReplaceKeyElems key newVal xs)
  | v => v

def deepReplaceKeyFields (key : String) (newVal : JVal) :
    List (String × JVal) → List (String × JVal)
  | [] => []
  | (k, v) :: rest =>
    (if k == key then (k, newVal) else (k, deepReplaceKey key newVal v))
      :: deepReplaceKeyFields key newVal rest

def deepReplaceKeyElems (key : String) (newVal : JVal) : List JVal → List JVal
  | [] => []
  | v :: rest => deepReplaceKey key newVal v :: deepReplaceKeyElems key newVal rest

end

/-- The recognized configuration options (§6 of the engine's option
surface); absent options are `none`/`false`, matching JS `undefined`. -/
structure Options where
  disable : Option (List String) := none
  successCases : Bool := false
  notRequiredPropertiesValidation : Bool := false
  successHttpCode : Option Nat := none
  forceAuthorizationHeader : Bool := false
  setParamsInBody : Bool := false

/-- A Swagger parameter declaration: `{name, in, type?, schema?}`. -/
structure ParamSpec where
  name : String
  paramIn : String
  type : Option String := none
  schema : Option JVal := none

/-- Method metadata `{parameters, responses, security, consumes}`.
Response keys are the declared numeric status codes (in declaration
order); each security requirement entry is an object keyed by scheme
name. -/
structure MethodMeta where
  parameters : Option (List ParamSpec) := none
  responses : List (Nat × JVal) := []
  security : Option (List (List (String × JVal))) := none
  consumes : Option (List String) := none

/-- A planned test case `{code, metadata}` (the default case carries no
response metadata). -/
structure TestCase where
  code : Nat
  metadata : Option JVal := none

/-- The engine's mutable tally (`_testPasses` / `_testFails` instance
fields, set to zero by the constructor). -/
structure RunState where
  passes : Nat
  fails : Nat
  deriving DecidableEq, Repr

/-- Result of dispatching one HTTP request: a transport throw/rejection,
or a response with its status code and parsed body. -/
inductive HttpResult where
  | err (message : String)
  | res (status : Nat) (body : JVal)

/-- A `SwaggerSmoke` instance together with its external collaborators:
`fakeResolve` is `fakeGenerator.resolve`, `validate` is the z-schema
validator, `dispatch` is the supertest transport (only responses whose
status the transport reports are seen by the `.then` branch).  Security
handlers receive `(metadata, path, method, caseStatusCode)`; parameter
handlers receive the positional argument list of the call site. -/
structure Engine where
  basePath : String
  paths : List (String × List (String × MethodMeta))
  security : List (String × (JVal → String → String → Nat → JVal))
  requestParams : List (String × (List JVal → JVal))
  staticParams : Option (List (String × JVal))
  options : Options
  fakeResolve : JVal → JVal
  validate : JVal → JVal → Bool
  dispatch : String → String → List (String × JVal) → Option JVal → HttpResult

/-- The type-inversion switch inside `_generateErrorParam`. -/
def invertType (t : String) : String :=
  if t = "integer" ∨ t = "number" ∨ t = "boolean" ∨ t = "array" ∨ t = "object" then "string"
  else if t = "string" then "integer"
  else "string"

/-- `_generateErrorParam(type, statusCode)`: with a truthy type, invert the
type exactly when the status code is `400` (strict equality in the source)
and delegate to `fakeGenerator.resolve({type})`. -/
def generateErrorParam (env : Engine) (t : String) (statusCode : Nat) : Option JVal :=
  if t != "" then
    some (env.fakeResolve (.obj [("type", .str (if statusCode = 400 then invertType t else t))]))
  else none

/-- `this._staticParams && this._staticParams.hasOwnProperty(key)`. -/
def staticHas (env : Engine) (key : String) : Bool :=
  match env.staticParams with
  | some sp => (jfLookup sp key).isSome
  | none => false

/-- `getParamValue(key, type, statusCode, ...args)`: registered handler
first, then the static dictionary, then — whenever the declared type is
truthy — a synthesized fake value, otherwise `undefined`. -/
def getParamValue (env : Engine) (key : String) (type? : Option String)
    (statusCode : Nat) (args : List JVal) : Option JVal :=
  match env.requestParams.find? (fun p => p.1 == key) with
  | some pr => some (pr.2 args)
  | none =>
    if staticHas env key then jfLookup (env.staticParams.getD []) key
    else
      match type? with
      | some t => if t != "" then generateErrorParam env t statusCode else none
      | none => none

/-- One iteration of the `_buildUrl` parameter loop: body parameters are
skipped, path parameters replace the first `{name}` occurrence in the
current template, query parameters are appended; the handler receives the
current template and the method. -/
def buildUrlStep (env : Engine) (method : String) (statusCode : Nat)
    (t : String) (p : ParamSpec) : String :=
  if p.paramIn == "body" then t
  else
    let v := getParamValue env p.name p.type statusCode [.str t, .str method]
    if p.paramIn == "path" then replaceFirstOcc t ("\x7b" ++ p.name ++ "\x7d") (jsToString v)
    else if p.paramIn == "query" then
      t ++ (if t.data.contains '?' then "&" else "?") ++ p.name ++ "=" ++ jsToString v
    else t

/-- `_buildUrl(template, method, params, testCaseStatusCode)`. -/
def buildUrl (env : Engine) (template method : String)
    (params : Option (List ParamSpec)) (statusCode : Nat) : String :=
  match params with
  | none => template
  | some ps => ps.foldl (buildUrlStep env method statusCode) template

/-- `setObjectParamValue`: when the generated body contains the key
somewhere, resolve it (with a `null` type and the `true` flag in the
method slot) and overwrite every occurrence; an unresolved value is stored
as `null` (JS stores `undefined`). -/
def setObjectParamValue (env : Engine) (object : JVal) (key : String)
    (template : String) (testCaseStatusCode : Nat) : JVal :=
  if hasKeyDeep key object then
    let paramValue := getParamValue env key none testCaseStatusCode [.str template, .bool true]
    deepReplaceKey key (paramValue.getD .null) object
  else object

/-- `_buildRequestBody(template, params, testCaseStatusCode)`: fake body
from the body parameter's schema, then (if `setParamsInBody`) overlay
every name in `lodash.union(Object.getOwnPropertyNames(staticParams),
requestParamsKeys)`; `Object.getOwnPropertyNames` throws on an undefined
static dictionary. -/
def buildRequestBody (env : Engine) (template : String)
    (params : Option (List ParamSpec)) (testCaseStatusCode : Nat) :
    Except String (Option JVal) :=
  match params with
  | none => .ok none
  | some ps =>
    match ps.find? (fun p => p.paramIn == "body") with
    | none => .ok none
    | some bodyParam =>
      let fakeData := env.fakeResolve (bodyParam.schema.getD .null)
      if env.options.setParamsInBody then
        match env.staticParams with
        | none => .error "TypeError: Object.getOwnPropertyNames called on undefined"
        | some sp =>
          let paramsKeys := ((sp.map (fun kv => kv.1)) ++ (env.requestParams.map (fun kv => kv.1))).eraseDups
          .ok (some (paramsKeys.foldl
            (fun o k => setObjectParamValue env o k template testCaseStatusCode) fakeData))
      else .ok (some fakeData)

/-- `Object.assign(headers, securityHeader)` for the two shapes
`lodash.isObject` accepts: own enumerable entries of a plain object, or
index keys of an array (`length` is not enumerable). -/
def objAssignHeaders (headers : List (String × JVal)) (v : JVal) : List (String × JVal) :=
  match v with
  | .obj fs => fs.foldl (fun h kv => jfSet h kv.1 kv.2) headers
  | .arr xs => xs.enum.foldl (fun h iv => jfSet h (toString iv.1) iv.2) headers
  | _ => headers

/-- The normalization tail of `_setSecurityHeader` (lines 315-325): an
`lodash.isObject` result is merged via `Object.assign`, a string becomes
the `Authorization` header, anything else throws the configuration
error. -/
def applySecurityHeader (headers : List (String × JVal)) (securityHeader : JVal) :
    Except String (List (String × JVal)) :=
  if isObjectJS securityHeader then .ok (objAssignHeaders headers securityHeader)
  else if isStringJS securityHeader then .ok (jfSet headers "Authorization" securityHeader)
  else .error "Security middleware returned not supported value. Supported types: string, object."

/-- `_setSecurityHeader(securityMetadataCollection, headers, path, method,
caseStatusCode)`: no registered schemes — headers unchanged; a non-empty
declared requirement list — the first entry is searched for the first
registered scheme key, and a missing match leaves `middleware` undefined
so reading `.handler` throws; no declared security — the first registered
handler is used only under `forceAuthorizationHeader` (with `null`
metadata). -/
def setSecurityHeader (env : Engine)
    (securityMetadataCollection : Option (List (List (String × JVal))))
    (headers : List (String × JVal)) (path method : String) (caseStatusCode : Nat) :
    Except String (List (String × JVal)) :=
  match env.security with
  | [] => .ok headers
  | (_, firstHandler) :: _ =>
    match securityMetadataCollection with
    | some (entry :: _) =>
      match env.security.find? (fun kv => (jfLookup entry kv.1).isSome) with
      | some kv =>
        let metadata := (jfLookup entry kv.1).getD .null
        applySecurityHeader headers (kv.2 metadata path method caseStatusCode)
      | none => .error "TypeError: cannot read property handler of undefined"
    | _ =>
      if env.options.forceAuthorizationHeader then
        applySecurityHeader headers (firstHandler .null path method caseStatusCode)
      else .ok headers

/-- `_setContentType`: first declared `consumes` entry, defaulting to
`application/json` when the list is absent (an empty declared list is
truthy in JS and yields an undefined content type, modelled as null). -/
def setContentType (meta : MethodMeta) (headers : List (String × JVal)) :
    List (String × JVal) :=
  match meta.consumes with
  | none => jfSet headers "Content-Type" (.str "application/json")
  | some [] => jfSet headers "Content-Type" .null
  | some (c :: _) => jfSet headers "Content-Type" (.str c)

/-- `_getRequestHeaders`: security headers, then content type. -/
def getRequestHeaders (env : Engine) (meta : MethodMeta) (template method : String)
    (caseStatusCode : Nat) : Except String (List (String × JVal)) := do
  let headers ← setSecurityHeader env meta.security [] template method caseStatusCode
  return setContentType meta headers

/-- The planner's in-place mutation `_forceSchemaPropertiesAsRequired(metadata.schema)`
expressed functionally on the response spec. -/
def forceRespSchema : JVal → JVal
  | .obj fs =>
    match jfLookup fs "schema" with
    | some s => .obj (jfSet fs "schema" (forceSchemaPropertiesAsRequired s))
    | none => .obj fs
  | m => m

/-- `_getGetMethodTestCases(responses)`: one case per declared status code
below the filter bound (300 under `successCases`, 500 otherwise), with the
optional force-required rewrite of the response schema; exactly one
default case at `successHttpCode || 200` when nothing survives. -/
def getGetMethodTestCases (opts : Options) (responses : List (Nat × JVal)) : List TestCase :=
  let testCases := (responses.filter (fun r => r.1 < (if opts.successCases then 300 else 500))).map
    (fun r => { code := r.1,
                metadata := some (if opts.notRequiredPropertiesValidation
                                  then forceRespSchema r.2 else r.2) })
  if testCases.isEmpty then [{ code := jsOrNat opts.successHttpCode 200, metadata := none }]
  else testCases

/-- The disable-list check `this.options.disable.includes(method:template)`. -/
def disabledCase (env : Engine) (method template : String) : Bool :=
  match env.options.disable with
  | some l => l.contains (method ++ ":" ++ template)
  | none => false

/-- The `.then` branch's schema check: `testCase.metadata &&
testCase.metadata.schema && !validate(res.body, testCase.metadata.schema)`. -/
def schemaValidationFails (env : Engine) (tc : TestCase) (resBody : JVal) : Bool :=
  match tc.metadata with
  | some md =>
    jsTruthy md &&
      (match jvLookup md "schema" with
       | some s => jsTruthy s && !(env.validate resBody s)
       | none => false)
  | none => false

/-- `_testCase(method, template, metadata, testCase)`: build URL, headers
and body (a throw in those steps rejects and unwinds), re-check the
disable list, dispatch.  The supertest `.expect` failure or a transport
error runs the `.catch` branch, which increments `fails` and then calls
`reject(error)` — modelled by `Except.error` carrying the updated tally.
A response with the expected status is validated: a schema failure
increments `fails` and resolves, otherwise `passes` is incremented. -/
def testCase (env : Engine) (st : RunState) (method template : String)
    (meta : MethodMeta) (tc : TestCase) : Except RunState RunState :=
  let url := buildUrl env template method meta.parameters tc.code
  match getRequestHeaders env meta template method tc.code with
  | .error _ => .error st
  | .ok headers =>
    match buildRequestBody env template meta.parameters tc.code with
    | .error _ => .error st
    | .ok body =>
      if disabledCase env method template then .ok st
      else
        match env.dispatch method (env.basePath ++ url) headers body with
        | .err _ => .error { st with fails := st.fails + 1 }
        | .res status resBody =>
          if status ≠ tc.code then .error { st with fails := st.fails + 1 }
          else if schemaValidationFails env tc resBody then .ok { st with fails := st.fails + 1 }
          else .ok { st with passes := st.passes + 1 }

/-- `_testEndpointMethod`: skip disabled endpoints, otherwise run the
planned cases in order, awaiting each (so a rejected case promise unwinds
the whole traversal). -/
def testEndpointMethod (env : Engine) (st : RunState) (template method : String)
    (meta : MethodMeta) : Except RunState RunState :=
  if disabledCase env method template then .ok st
  else (getGetMethodTestCases env.options meta.responses).foldlM
    (fun s tc => testCase env s method template meta tc) st

/-- `_testEndpoint`: methods in declaration order. -/
def testEndpoint (env : Engine) (st : RunState) (name : String)
    (methods : List (String × MethodMeta)) : Except RunState RunState :=
  methods.foldlM (fun s m => testEndpointMethod env s name m.1 m.2) st

/-- `runTests(swaggerApp)`: traverse the contract's endpoints starting
from the instance's current tally (the counters are initialised by the
constructor and never reset here) and return the final `{fails, passes}`;
an unwound case rejection makes the returned promise reject instead. -/
def runTests (env : Engine) (st : RunState) : Except RunState RunState :=
  env.paths.foldlM (fun s p => testEndpoint env s p.1 p.2) st

/-! Concrete engine instances and contract fragments used to settle the
individual claims, followed by the claim theorems. -/

/-- A minimal engine: empty registries, empty contract, inert oracles. -/
def baseEngine : Engine where
  basePath := ""
  paths := []
  security := []
  requestParams := []
  staticParams := none
  options := {}
  fakeResolve := fun _ => .null
  validate := fun _ _ => true
  dispatch := fun _ _ _ _ => .err "no transport"

/-- Contract for C1: one GET endpoint declaring a 200 and a 404 response. -/
def metaC1 : MethodMeta := { responses := [(200, .obj []), (404, .obj [])] }

/-- Engine for C1: the transport always answers 404, so the planned 200
case fails its status assertion and the planned 404 case would pass. -/
def envC1 : Engine :=
  { baseEngine with
      paths := [("/a", [("get", metaC1)])]
      dispatch := fun _ _ _ _ => .res 404 .null }

/-- Engine for C2: no providers; the fake generator returns its input
schema so the requested fake type is directly observable. -/
def envC2 : Engine := { baseEngine with fakeResolve := fun s => s }

/-- Engine for C3 counterexample: same transparent fake generator. -/
def envC3 : Engine := { baseEngine with fakeResolve := fun s => s }

/-- Engine for C3 witness, handler branch: a registered handler for id. -/
def envC3a : Engine := { baseEngine with requestParams := [("id", fun _ => .str "H")] }

/-- Engine for C3 witness, static branch: a static dictionary entry. -/
def envC3b : Engine := { baseEngine with staticParams := some [("id", .str "S")] }

/-- Engine for C3 witness, fallback branches: transparent fake generator. -/
def envC3c : Engine := { baseEngine with fakeResolve := fun s => s }

/-- Engine for C4: the fake generator always produces the string FAKE. -/
def envC4 : Engine := { baseEngine with fakeResolve := fun _ => .str "FAKE" }

/-- The declared path parameter id of the C4 scenario. -/
def idParamC4 : ParamSpec := { name := "id", paramIn := "path", type := some "string" }

/-- Nested object sub-schema of the C5 schema (under properties.a). -/
def innerC5 : JVal :=
  .obj [("type", .str "object"),
        ("properties", .obj [("c", .obj [("type", .str "string")])])]

/-- The C5 schema: an object schema with properties a (itself an object
schema with its own properties) and b, and no required list. -/
def schemaC5 : JVal :=
  .obj [("properties", .obj [("a", innerC5), ("b", .obj [("type", .str "string")])])]

/-- Engine for C7: the registered security handler returns an array,
which is neither a string nor a plain object. -/
def envC7 : Engine :=
  { baseEngine with
      security := [("token_auth", fun _ _ _ _ => .arr [.str "x", .str "y"])] }

/-- Engine for C8: the transport answers 200 and the validator rejects
every body, so the schema check of the 200 case fails. -/
def envC8 : Engine :=
  { baseEngine with
      validate := fun _ _ => false
      dispatch := fun _ _ _ _ => .res 200 (.obj []) }

/-- Method metadata for C8 (no parameters, no security). -/
def metaC8 : MethodMeta := {}

/-- The C8 test case: expected status 200 with a declared schema. -/
def tcC8 : TestCase :=
  { code := 200, metadata := some (.obj [("schema", .obj [("type", .str "object")])]) }

/-- Contract for C9: one GET endpoint declaring a single 200 response. -/
def metaC9 : MethodMeta := { responses := [(200, .obj [])] }

/-- Engine for C9: the transport always answers 200, so the single
planned case passes on every invocation. -/
def envC9 : Engine :=
  { baseEngine with
      paths := [("/a", [("get", metaC9)])]
      dispatch := fun _ _ _ _ => .res 200 .null }

/-- Tally shift: add a constant offset to both counters. -/
def shiftTally (p f : Nat) (st : RunState) : RunState :=
  { passes := st.passes + p, fails := st.fails + f }

/-- Tally shift lifted to a run outcome (both the returned and the
rejected-with state). -/
def shiftResult (p f : Nat) : Except RunState RunState → Except RunState RunState
  | .ok st => .ok (shiftTally p f st)
  | .error st => .error (shiftTally p f st)

/-- Engine for C10: one registered scheme auth; the endpoint's first
requirement entry names only the unregistered scheme other, while a later
entry names auth. -/
def envC10 : Engine :=
  { baseEngine with security := [("auth", fun _ _ _ _ => .str "Bearer t")] }

/-- Claim C6 (confirmed): for every endpoint method the planner yields
exactly one test case per declared response status code passing the filter
(status below 300 under the success-only option, below 500 otherwise), and
exactly one default case at the configured successHttpCode (200 when not
configured) when no code survives — including when no responses are
declared. -/
theorem getGetMethodTestCases_counts (opts : Options) (responses : List (Nat × JVal)) :
    (getGetMethodTestCases opts responses).map TestCase.code
      = if (responses.filter (fun r => r.1 < (if opts.successCases then 300 else 500))).isEmpty
        then [jsOrNat opts.successHttpCode 200]
        else (responses.filter (fun r => r.1 < (if opts.successCases then 300 else 500))).map Prod.fst := by
  unfold getGetMethodTestCases
  cases h : responses.filter (fun r => r.1 < (if opts.successCases then 300 else 500)) with
  | nil => simp [h]
  | cons a as => simp [h]

/-- Claim C5 (code bug): with the force-all-properties-required option the
rewrite does set the top-level required list to the full property-name set
(here, a and b), but the nested object-typed sub-schema under
properties.a is returned unchanged, still without any required list — the
recursion branch of the source tests lodash.isObject(key) on a string key
and is therefore dead, so object sub-schemas under properties are never
rewritten, contradicting the claim's recursive part. -/
theorem forceRequired_rewrites_top_level_only :
    forceSchemaPropertiesAsRequired schemaC5
      = .obj [("properties", .obj [("a", innerC5), ("b", .obj [("type", .str "string")])]),
              ("required", .arr [.str "a", .str "b"])]
    ∧ jvLookup innerC5 "required" = none := ⟨rfl, rfl⟩

/-- Claim C2 counterexample: 404 is a 400-class client-error status, yet
with no provider and no static entry the resolver asks the fake generator
for the declared type integer, not for the inverted type string — the
inversion the claim asserts for the whole 400 class happens only at the
literal status 400. -/
theorem getParamValue_no_inversion_at_404 :
    (400 ≤ 404 ∧ 404 < 500)
    ∧ getParamValue envC2 "age" (some "integer") 404 []
        = some (.obj [("type", .str "integer")])
    ∧ ¬ getParamValue envC2 "age" (some "integer") 404 []
        = some (.obj [("type", .str "string")]) := by
  refine ⟨by decide, rfl, ?_⟩
  intro h
  have h2 : (some (JVal.obj [("type", JVal.str "integer")]) : Option JVal)
      = some (.obj [("type", .str "string")]) := h
  simp at h2

/-- Claim C2 (amended): for a parameter with no registered handler and no
static entry and a known declared type, the resolver synthesizes a fake
value whose requested type is the inversion-table image of the declared
type exactly when the target status code is the literal 400, and the
declared type itself for every other status code; the inversion table maps
integer, number, boolean, array and object to string, string to integer,
and any other type to string. -/
theorem getParamValue_wrong_type_at_400_exactly
    (env : Engine) (key t : String) (code : Nat) (args : List JVal)
    (hreg : env.requestParams.find? (fun p => p.1 == key) = none)
    (hstatic : staticHas env key = false)
    (ht : t ≠ "") :
    getParamValue env key (some t) code args
      = some (env.fakeResolve (.obj [("type",
          .str (if code = 400 then invertType t else t))]))
    ∧ invertType "integer" = "string" ∧ invertType "number" = "string"
    ∧ invertType "boolean" = "string" ∧ invertType "array" = "string"
    ∧ invertType "object" = "string" ∧ invertType "string" = "integer"
    ∧ ∀ u, u ≠ "string" → invertType u = "string" := by
  refine ⟨?_, by decide, by decide, by decide, by decide, by decide, by decide, ?_⟩
  · unfold getParamValue
    rw [hreg]
    simp [hstatic, generateErrorParam, ht]
  · intro u hu
    by_cases h1 : u = "integer" ∨ u = "number" ∨ u = "boolean" ∨ u = "array" ∨ u = "object"
    · simp [invertType, h1]
    · simp [invertType, h1, hu]

/-- Claim C2 witness: at the literal status 400 the declared integer type
is inverted to string and handed to the fake generator. -/
theorem getParamValue_wrong_type_at_400_exactly_witness :
    getParamValue envC2 "age" (some "integer") 400 [] = some (.obj [("type", .str "string")]) := by
  have h := getParamValue_wrong_type_at_400_exactly envC2 "age" "integer" 400 [] rfl rfl (by decide)
  simpa [envC2, baseEngine, invertType] using h.1

/-- Claim C3 counterexample: with no provider and no static entry and the
declared type string, a test case targeting status 200 — which is not in
the 400 class, so by the claim the parameter should resolve to absent —
still resolves to a synthesized fake value. -/
theorem getParamValue_not_absent_without_provider :
    getParamValue envC3 "id" (some "string") 200 [] = some (.obj [("type", .str "string")])
    ∧ ¬ getParamValue envC3 "id" (some "string") 200 [] = none := by
  refine ⟨rfl, ?_⟩
  intro h
  have h2 : (some (JVal.obj [("type", JVal.str "string")]) : Option JVal) = none := h
  simp at h2

/-- Claim C3 (amended): value resolution tries, in order with first match
winning: (1) a registered handler for the key, (2) a static dictionary
entry, (3) whenever the declared type is known — for any target status
code — a synthetic fake value, type-inverted only when the status is the
literal 400 and of the declared type otherwise, and (4) absent only when
no declared type is known. -/
theorem getParamValue_precedence (env : Engine) (key : String) (type? : Option String)
    (code : Nat) (args : List JVal) :
    (∀ k0 h, env.requestParams.find? (fun p => p.1 == key) = some (k0, h) →
      getParamValue env key type? code args = some (h args))
    ∧ (env.requestParams.find? (fun p => p.1 == key) = none → staticHas env key = true →
      getParamValue env key type? code args = jfLookup (env.staticParams.getD []) key)
    ∧ (∀ t, env.requestParams.find? (fun p => p.1 == key) = none → staticHas env key = false →
      type? = some t → t ≠ "" →
      getParamValue env key type? code args
        = some (env.fakeResolve (.obj [("type", .str (if code = 400 then invertType t else t))])))
    ∧ (env.requestParams.find? (fun p => p.1 == key) = none → staticHas env key = false →
      (type? = none ∨ type? = some "") →
      getParamValue env key type? code args = none) := by
  refine ⟨?_, ?_, ?_, ?_⟩
  · intro k0 h hreg
    unfold getParamValue
    rw [hreg]
  · intro hreg hstatic
    unfold getParamValue
    rw [hreg]
    simp [hstatic]
  · intro t hreg hstatic htype ht
    subst htype
    unfold getParamValue
    rw [hreg]
    simp [hstatic, generateErrorParam, ht]
  · intro hreg hstatic htype
    unfold getParamValue
    rw [hreg]
    rcases htype with h | h <;> subst h <;> simp [hstatic]

/-- Claim C3 witness: the four precedence branches at concrete engines —
handler beats everything, static beats synthesis, a known type yields the
(inverted at 400) fake, and no type yields absent. -/
theorem getParamValue_precedence_witness :
    getParamValue envC3a "id" (some "string") 400 [] = some (.str "H")
    ∧ getParamValue envC3b "id" (some "string") 400 [] = some (.str "S")
    ∧ getParamValue envC3c "id" (some "string") 400 [] = some (.obj [("type", .str "integer")])
    ∧ getParamValue envC3c "id" none 200 [] = none := by
  refine ⟨?_, ?_, ?_, ?_⟩
  · exact (getParamValue_precedence envC3a "id" (some "string") 400 []).1
      "id" (fun _ => .str "H") rfl
  · exact ((getParamValue_precedence envC3b "id" (some "string") 400 []).2.1 rfl rfl).trans rfl
  · exact (((getParamValue_precedence envC3c "id" (some "string") 400 []).2.2.1
      "string" rfl rfl rfl (by decide)).trans (by rfl))
  · exact (getParamValue_precedence envC3c "id" none 200 []).2.2.2 rfl rfl (Or.inl rfl)

/-- Claim C4 counterexample: in the /widgets/\x7bid\x7d 404 case with no
provider or static entry for id, the parameter does not resolve to absent
— the engine synthesizes a fake string (declared type, no inversion since
404 is not the literal 400) and substitutes it into the path, so the
placeholder is not left unreplaced. -/
theorem buildUrl_404_placeholder_substituted :
    buildUrl envC4 "/widgets/{id}" "get" (some [idParamC4]) 404 = "/widgets/FAKE"
    ∧ "/widgets/FAKE" ≠ "/widgets/{id}"
    ∧ ¬ getParamValue envC4 "id" (some "string") 404 [.str "/widgets/{id}", .str "get"] = none := by
  refine ⟨rfl, by decide, ?_⟩
  intro h
  have h2 : (some (JVal.str "FAKE") : Option JVal) = none := h
  simp at h2

/-- Claim C4 (amended): in the /widgets/\x7bid\x7d 404 case with id
declared in=path and type string and no provider or static entry, id
resolves to the fake value the generator produces for the declared type
string, and the URL is the template with the first placeholder occurrence
replaced by that value's string coercion. -/
theorem buildUrl_404_uses_declared_type_fake
    (env : Engine)
    (hreg : env.requestParams.find? (fun p => p.1 == "id") = none)
    (hstatic : staticHas env "id" = false) :
    getParamValue env "id" (some "string") 404 [.str "/widgets/{id}", .str "get"]
      = some (env.fakeResolve (.obj [("type", .str "string")]))
    ∧ buildUrl env "/widgets/{id}" "get" (some [idParamC4]) 404
      = replaceFirstOcc "/widgets/{id}" "{id}"
          (jvalToString (env.fakeResolve (.obj [("type", .str "string")]))) := by
  have h1 : getParamValue env "id" (some "string") 404 [.str "/widgets/{id}", .str "get"]
      = some (env.fakeResolve (.obj [("type", .str "string")])) := by
    unfold getParamValue
    rw [hreg]
    simp [hstatic, generateErrorParam]
  refine ⟨h1, ?_⟩
  unfold buildUrl
  simp [buildUrlStep, idParamC4, h1, jsToString]

/-- Claim C4 witness: with a generator that produces the string FAKE, the
404 case's URL is /widgets/FAKE. -/
theorem buildUrl_404_uses_declared_type_fake_witness :
    buildUrl envC4 "/widgets/{id}" "get" (some [idParamC4]) 404 = "/widgets/FAKE" := by
  have h := buildUrl_404_uses_declared_type_fake envC4 rfl rfl
  exact h.2.trans rfl

/-- Claim C7 counterexample: an invoked security handler that returns an
array — which is neither a string nor a plain object — does not raise the
configuration error the claim requires for "any other type"; because
lodash.isObject accepts arrays, its index keys are silently merged into
the header map. -/
theorem setSecurityHeader_accepts_array :
    setSecurityHeader envC7 (some [[("token_auth", .null)]]) [] "/p" "get" 200
      = .ok [("0", .str "x"), ("1", .str "y")]
    ∧ isStringJS (.arr [.str "x", .str "y"]) = false
    ∧ isPlainObjectJS (.arr [.str "x", .str "y"]) = false := ⟨rfl, rfl, rfl⟩

/-- Claim C7 (amended): a security handler result that is a string sets
exactly the Authorization header; a result that lodash.isObject accepts —
a plain object or an array — has exactly its own enumerable keys merged
into the header map (index keys for an array); only a result that is
neither (null, number, boolean) raises the explicit configuration
error. -/
theorem applySecurityHeader_normalization (headers : List (String × JVal)) (v : JVal) :
    (∀ s, v = .str s → applySecurityHeader headers v = .ok (jfSet headers "Authorization" (.str s)))
    ∧ (isObjectJS v = true → applySecurityHeader headers v = .ok (objAssignHeaders headers v))
    ∧ (isObjectJS v = false → isStringJS v = false →
        applySecurityHeader headers v
          = .error "Security middleware returned not supported value. Supported types: string, object.") := by
  refine ⟨?_, ?_, ?_⟩
  · intro s hs
    subst hs
    rfl
  · intro h
    simp [applySecurityHeader, h]
  · intro h1 h2
    simp [applySecurityHeader, h1, h2]

/-- Claim C7 witness: the three normalization branches at concrete handler
results — a string, a plain object, and a number. -/
theorem applySecurityHeader_normalization_witness :
    applySecurityHeader [] (.str "B") = .ok [("Authorization", .str "B")]
    ∧ applySecurityHeader [] (.obj [("X", .num 1)]) = .ok [("X", .num 1)]
    ∧ applySecurityHeader [] (.num 7)
      = .error "Security middleware returned not supported value. Supported types: string, object." := by
  refine ⟨?_, ?_, ?_⟩
  · exact (applySecurityHeader_normalization [] (.str "B")).1 "B" rfl
  · exact ((applySecurityHeader_normalization [] (.obj [("X", .num 1)])).2.1 rfl).trans rfl
  · exact (applySecurityHeader_normalization [] (.num 7)).2.2 rfl rfl

/-- Claim C10 (confirmed): with at least one registered security handler
and a non-empty declared requirement list whose first entry names no
registered scheme, header resolution throws (the undefined middleware's
handler is read), for every tail of later requirement entries — they are
never consulted — instead of returning the headers unchanged. -/
theorem setSecurityHeader_unmatched_first_requirement
    (env : Engine) (entry : List (String × JVal)) (rest : List (List (String × JVal)))
    (headers : List (String × JVal)) (path method : String) (code : Nat)
    (hsec : env.security ≠ [])
    (hmatch : env.security.find? (fun kv => (jfLookup entry kv.1).isSome) = none) :
    setSecurityHeader env (some (entry :: rest)) headers path method code
      = .error "TypeError: cannot read property handler of undefined" := by
  rcases h : env.security with _ | ⟨⟨k, f⟩, tl⟩
  · exact absurd h hsec
  · rw [h] at hmatch
    simp only [setSecurityHeader, h, hmatch]

/-- Claim C10 witness: one registered scheme auth, a first requirement
entry naming only other, and a later entry naming auth — resolution still
throws rather than using the later entry. -/
theorem setSecurityHeader_unmatched_first_requirement_witness :
    setSecurityHeader envC10 (some [[("other", .null)], [("auth", .null)]]) [] "/p" "get" 200
      = .error "TypeError: cannot read property handler of undefined" := by
  exact setSecurityHeader_unmatched_first_requirement envC10 [("other", .null)]
    [[("auth", .null)]] [] "/p" "get" 200 (by simp [envC10, baseEngine]) rfl

/-- Claim C8 (confirmed): an executed test case whose expected response
declares a schema and whose observed body fails validation increments
fails by exactly one, leaves passes unchanged, resolves rather than
throwing, and the traversal continues with the remaining cases. -/
theorem testCase_validation_failure_isolated
    (env : Engine) (st : RunState) (method template : String) (meta : MethodMeta)
    (tc : TestCase) (hdrs : List (String × JVal)) (body : Option JVal)
    (resBody md s : JVal)
    (hheaders : getRequestHeaders env meta template method tc.code = .ok hdrs)
    (hbody : buildRequestBody env template meta.parameters tc.code = .ok body)
    (hdisable : disabledCase env method template = false)
    (hdispatch : env.dispatch method
        (env.basePath ++ buildUrl env template method meta.parameters tc.code) hdrs body
      = .res tc.code resBody)
    (hmd : tc.metadata = some md)
    (hmdT : jsTruthy md = true)
    (hsl : jvLookup md "schema" = some s)
    (hsT : jsTruthy s = true)
    (hval : env.validate resBody s = false) :
    testCase env st method template meta tc = .ok ⟨st.passes, st.fails + 1⟩
    ∧ ∀ (rest : List TestCase),
        (tc :: rest).foldlM (fun acc c => testCase env acc method template meta c) st
          = rest.foldlM (fun acc c => testCase env acc method template meta c)
              ⟨st.passes, st.fails + 1⟩ := by
  have hval2 : schemaValidationFails env tc resBody = true := by
    unfold schemaValidationFails
    rw [hmd]
    simp [hmdT, hsl, hsT, hval]
  have h1 : testCase env st method template meta tc = .ok ⟨st.passes, st.fails + 1⟩ := by
    unfold testCase
    rw [hheaders, hbody, hdisable]
    dsimp only
    rw [hdispatch]
    simp [hval2]
  refine ⟨h1, ?_⟩
  intro rest
  rw [List.foldlM_cons, h1]
  rfl

/-- Claim C8 witness: a concrete 200 case with a declared schema, a
transport answering 200 and a validator rejecting the body — the tally
moves from 3 passes, 4 fails to 3 passes, 5 fails and the case
resolves. -/
theorem testCase_validation_failure_isolated_witness :
    testCase envC8 ⟨3, 4⟩ "get" "/a" metaC8 tcC8 = .ok ⟨3, 5⟩ := by
  have h := testCase_validation_failure_isolated envC8 ⟨3, 4⟩ "get" "/a" metaC8 tcC8
    [("Content-Type", .str "application/json")] none (.obj [])
    (.obj [("schema", .obj [("type", .str "object")])]) (.obj [("type", .str "object")])
    rfl rfl rfl rfl rfl rfl rfl rfl rfl
  exact h.1

/-- Claim C1 (code bug): over a contract whose planner yields two test
cases (200 and 404), the failing 200 case (transport answers 404)
increments fails, but its catch branch then rejects the case promise, so
the awaited traversal unwinds: runTests rejects with the tally 0 passes,
1 fail and the 404 case — which would have passed — is never executed,
contrary to the claimed isolation. -/
theorem runTests_aborts_on_first_case_failure :
    (getGetMethodTestCases envC1.options metaC1.responses).length = 2
    ∧ runTests envC1 ⟨0, 0⟩ = .error ⟨0, 1⟩ := ⟨rfl, rfl⟩

/-- Claim C9 counterexample: the counters are not reset by runTests; the
first invocation over a one-case contract returns 1 pass, and a second
invocation on the same instance returns 2 passes — including the first
call's count, not only its own. -/
theorem runTests_accumulates_across_invocations :
    runTests envC9 ⟨0, 0⟩ = .ok ⟨1, 0⟩
    ∧ runTests envC9 ⟨1, 0⟩ = .ok ⟨2, 0⟩
    ∧ (2 : Nat) ≠ 1 := ⟨rfl, rfl, by decide⟩

/-- Helper for C9: every branch of a single test case only adds to the
tally and never reads it, so shifting the starting tally shifts the
outcome. -/
theorem testCase_tally_shift (env : Engine) (method template : String) (meta : MethodMeta)
    (tc : TestCase) (p f : Nat) (st : RunState) :
    testCase env (shiftTally p f st) method template meta tc
      = shiftResult p f (testCase env st method template meta tc) := by
  unfold testCase
  dsimp only
  cases getRequestHeaders env meta template method tc.code with
  | error e => rfl
  | ok headers =>
    cases buildRequestBody env template meta.parameters tc.code with
    | error e => rfl
    | ok body =>
      by_cases hd : disabledCase env method template = true
      · simp [hd, shiftResult]
      · simp only [hd, if_false]
        cases env.dispatch method
            (env.basePath ++ buildUrl env template method meta.parameters tc.code)
            headers body with
        | err m =>
          simp [shiftResult, shiftTally, RunState.mk.injEq]
          omega
        | res status resBody =>
          dsimp only
          by_cases h4 : status = tc.code
          · have h4n : ¬ (status ≠ tc.code) := fun hh => hh h4
            rw [if_neg h4n, if_neg h4n]
            by_cases h5 : schemaValidationFails env tc resBody = true
            · rw [if_pos h5, if_pos h5]
              simp [shiftResult, shiftTally, RunState.mk.injEq]
              omega
            · rw [if_neg h5, if_neg h5]
              simp [shiftResult, shiftTally, RunState.mk.injEq]
              omega
          · have h4' : status ≠ tc.code := h4
            rw [if_pos h4', if_pos h4']
            simp [shiftResult, shiftTally, RunState.mk.injEq]
            omega

/-- Helper for C9: a tally-shift-compatible step lifts through the
sequential (exception-propagating) fold over a list. -/
theorem foldlM_tally_shift {α : Type} (p f : Nat)
    (step : RunState → α → Except RunState RunState)
    (hstep : ∀ st a, step (shiftTally p f st) a = shiftResult p f (step st a)) :
    ∀ (l : List α) (st : RunState),
      l.foldlM step (shiftTally p f st) = shiftResult p f (l.foldlM step st) := by
  intro l
  induction l with
  | nil => intro st; rfl
  | cons a l ih =>
    intro st
    rw [List.foldlM_cons, List.foldlM_cons, hstep]
    cases h : step st a with
    | error e => rfl
    | ok s' => exact ih s'

/-- Helper for C9: tally shift through one endpoint method. -/
theorem testEndpointMethod_tally_shift (env : Engine) (template method : String)
    (meta : MethodMeta) (p f : Nat) (st : RunState) :
    testEndpointMethod env (shiftTally p f st) template method meta
      = shiftResult p f (testEndpointMethod env st template method meta) := by
  unfold testEndpointMethod
  by_cases hd : disabledCase env method template = true
  · simp [hd, shiftResult]
  · simp only [hd, if_false]
    exact foldlM_tally_shift p f _
      (fun st tc => testCase_tally_shift env method template meta tc p f st) _ st

/-- Helper for C9: tally shift through one endpoint. -/
theorem testEndpoint_tally_shift (env : Engine) (name : String)
    (methods : List (String × MethodMeta)) (p f : Nat) (st : RunState) :
    testEndpoint env (shiftTally p f st) name methods
      = shiftResult p f (testEndpoint env st name methods) := by
  unfold testEndpoint
  exact foldlM_tally_shift p f _
    (fun st m => testEndpointMethod_tally_shift env name m.1 m.2 p f st) methods st

/-- Helper for C9: tally shift through a whole traversal. -/
theorem runTests_tally_shift (env : Engine) (p f : Nat) (st : RunState) :
    runTests env (shiftTally p f st) = shiftResult p f (runTests env st) := by
  unfold runTests
  exact foldlM_tally_shift p f _
    (fun st pa => testEndpoint_tally_shift env pa.1 pa.2 p f st) env.paths st

/-- Claim C9 (amended): the tally counters are set to zero by the engine
constructor and never reset by runTests; an invocation starting from
counters (p, f) returns (or rejects with) exactly the zero-started
outcome shifted by (p, f), so the result of a second runTests call on the
same instance includes the first call's counts. -/
theorem runTests_shifts_initial_tally (env : Engine) (p f : Nat) :
    runTests env ⟨p, f⟩ = shiftResult p f (runTests env ⟨0, 0⟩) := by
  have h := runTests_tally_shift env p f ⟨0, 0⟩
  simpa [shiftTally] using h
